import Mathlib

/-!
Verification of `packages/integrations/image/src/lib/get-picture.ts`.

The file shallowly embeds the module's functions (`resolveAspectRatio`,
`resolveFormats`, the inner `getSource`, and `getPicture`) as pure Lean
functions.  JavaScript numbers appearing as widths are embedded as `ℤ`
(the call sites use integer pixel widths), aspect ratios as `ℚ`, and
`Math.max(...widths)` as a fold over `WithBot ℚ` so that the empty-spread
value `-Infinity` is representable as `⊥`.  Promises are embedded by
sequential evaluation: `Promise.all` gathers its results by position, which
is exactly what the embedding `promiseAll` does; a rejection aborts the
whole call, which `promiseAll` models by returning the error.

The two collaborators of the module, the image transformer `getImage`
(defined in `get-image.ts`, outside the given sources) and the MIME lookup
`mime.getType`, are taken as function parameters, following the spec's
description of them as injected external collaborators.  `parseAspectRatio`
(defined in `loaders/index.js`, also outside the given sources) is modelled
from the spec.
-/

deriving instance DecidableEq for Except

/-- Image metadata record: `{src, width, height}` from
`vite-plugin-astro-image`.  Dimensions are embedded as `ℚ` because the
source divides them (`metadata.width / metadata.height`). -/
structure ImageMetadata where
  src : String
  width : ℚ
  height : ℚ
deriving DecidableEq

/-- The `src` parameter of `getPicture`:
`string | ImageMetadata | Promise<{ default: ImageMetadata }>`.
A settled promise is embedded by the record it resolves to; the source's
`'then' in src` probe is embedded by matching on the constructor. -/
inductive Src where
  | path (s : String)
  | metadata (m : ImageMetadata)
  | promise (m : ImageMetadata)
deriving DecidableEq

/-- The `aspectRatio` option of `TransformOptions`: a number or a `"W:H"`
string. -/
inductive AspectRatioParam where
  | num (q : ℚ)
  | strRatio (w h : ℚ)
deriving DecidableEq

/-- The fields of `TransformOptions` that `get-picture.ts` populates.
`width` lives in `WithBot ℚ` because the fallback request passes
`Math.max(...widths)`, which is `-Infinity` (`⊥`) when `widths` is empty;
`format` is optional because `allFormats[allFormats.length - 1]` is
`undefined` when `allFormats` is empty. -/
structure TransformOptions where
  src : Src
  format : Option String := none
  width : WithBot ℚ
  height : Option ℤ := none
  aspectRatio : Option AspectRatioParam := none
  fit : Option String := none
  position : Option String := none
  background : Option String := none
deriving DecidableEq

/-- The attributes object returned by the `getImage` collaborator; the only
field `get-picture.ts` reads is `src` (the produced URL). -/
structure ImgAttributes where
  src : String
deriving DecidableEq

/-- One entry of `GetPictureResult.sources`. -/
structure SourceEntry where
  type : String
  srcset : String
deriving DecidableEq

/-- `GetPictureResult`: the fallback image attributes and the source list. -/
structure GetPictureResult where
  image : ImgAttributes
  sources : List SourceEntry
deriving DecidableEq

/-- The errors `getPicture` can throw.  `srcRequired` and `widthRequired`
are the two `InvalidArgument` throws, `missingAspectRatio` is the
`"aspectRatio must be provided for remote images"` throw, and
`transformError` carries a rejection propagated from the transformer. -/
inductive GPError where
  | srcRequired
  | widthRequired
  | missingAspectRatio
  | transformError (e : String)
deriving DecidableEq

/-- The parameters of `getPicture`.  `widths` is `Option`-wrapped so that
the JavaScript guard `!widths || !Array.isArray(widths)` is expressible:
it fires exactly when `widths` is not an array (embedded as `none`); every
actual array, including the empty one, is truthy and passes. -/
structure GetPictureParams where
  src : Src
  widths : Option (List ℤ)
  formats : List String
  aspectRatio : Option AspectRatioParam := none
  fit : Option String := none
  background : Option String := none
  position : Option String := none
deriving DecidableEq

/-- JavaScript truthiness of the resolved aspect ratio: `undefined` and `0`
are falsy. -/
def qTruthy : Option ℚ → Bool
  | none => false
  | some q => q != 0

/-- JavaScript truthiness of the `src` parameter: of the three runtime
shapes, only the empty path string is falsy. -/
def srcTruthy : Src → Bool
  | .path s => s != ""
  | .metadata _ => true
  | .promise _ => true

/-- JavaScript `Math.round`: half-way cases round toward positive
infinity, `Math.round(x) = ⌊x + 1/2⌋`.  Written with `Rat.floor`, which
computes; `jsRound_eq_floor` below restates it with `Int.floor`. -/
def jsRound (q : ℚ) : ℤ := (q + 1 / 2).floor

/-- JavaScript `Math.max(...l)` over a finite list of numbers: a fold of
`max` starting from `-Infinity` (`⊥`). -/
def jsMax (l : List ℤ) : WithBot ℚ :=
  l.foldl (fun (acc : WithBot ℚ) (w : ℤ) => max acc ((w : ℚ) : WithBot ℚ)) ⊥

/-- JavaScript `a || b` for a string-or-null `a`: `null` and `""` are
falsy. -/
def jsOrStr (a : Option String) (b : String) : String :=
  match a with
  | none => b
  | some s => if s = "" then b else s

/-- `p` is a prefix of the second list (character-by-character). -/
def leadsWith : List Char → List Char → Bool
  | [], _ => true
  | _ :: _, [] => false
  | a :: as, b :: bs => a == b && leadsWith as bs

/-- Replace the first occurrence of the pattern `p` by `r`, on character
lists; JavaScript `String.prototype.replace` with a string pattern. -/
def replaceFirstAux (p r : List Char) : List Char → List Char
  | [] => if p.isEmpty then r else []
  | c :: cs =>
    if leadsWith p (c :: cs) then r ++ (c :: cs).drop p.length
    else c :: replaceFirstAux p r cs

/-- JavaScript `s.replace(pat, rep)` with a string pattern: only the first
occurrence is replaced. -/
def jsReplaceFirst (s pat rep : String) : String :=
  ⟨replaceFirstAux pat.data rep.data s.data⟩

/-- Model of Node's posix `path.extname` on character lists: the part of
the last path segment from its last dot, empty when the segment has no
dot, when its only dot is its first character (a dotfile), or when the
segment is exactly `".."`. -/
def extnameChars (l : List Char) : List Char :=
  let b := (l.reverse.takeWhile (fun c => c != '/')).reverse
  if b = ['.', '.'] then []
  else
    let tl := b.reverse.takeWhile (fun c => c != '.')
    if tl.length = b.length then []
    else if tl.length + 1 = b.length then []
    else '.' :: tl.reverse

/-- Model of Node's posix `path.extname` (external library function). -/
def extname (s : String) : String := ⟨extnameChars s.data⟩

/-- Modelled from the spec: `parseAspectRatio` from `loaders/index.js` is
not among the given sources.  The spec says an explicit override is
"either a decimal ratio or a `"W:H"` string"; with no override there is
nothing to parse. -/
def parseAspectRatio : Option AspectRatioParam → Option ℚ
  | none => none
  | some (.num q) => some q
  | some (.strRatio w h) => some (w / h)

/-- `resolveAspectRatio` from `get-picture.ts`: for a path string the
parsed override alone; for a metadata record (direct or awaited)
`parseAspectRatio(aspectRatio) || metadata.width / metadata.height`. -/
def resolveAspectRatio (src : Src) (aspectRatio : Option AspectRatioParam) :
    Option ℚ :=
  match src with
  | .path _ => parseAspectRatio aspectRatio
  | .metadata m =>
    if qTruthy (parseAspectRatio aspectRatio) then parseAspectRatio aspectRatio
    else some (m.width / m.height)
  | .promise m =>
    if qTruthy (parseAspectRatio aspectRatio) then parseAspectRatio aspectRatio
    else some (m.width / m.height)

/-- `Set.prototype.add` on the insertion-order view of a JavaScript `Set`:
append the element unless it is already present. -/
def setAdd (l : List String) (x : String) : List String :=
  if x ∈ l then l else l ++ [x]

/-- `new Set(formats)` read back with `Array.from`: deduplication keeping
the first occurrence of each element. -/
def dedupFirst (l : List String) : List String := l.foldl setAdd []

/-- The format token derived from the source's file extension:
`extname(path).replace('.', '')`, taking the path from the string itself
or from the (awaited) metadata record. -/
def nativeFormatToken : Src → String
  | .path s => jsReplaceFirst (extname s) "." ""
  | .metadata m => jsReplaceFirst (extname m.src) "." ""
  | .promise m => jsReplaceFirst (extname m.src) "." ""

/-- `resolveFormats` from `get-picture.ts`: the declared formats as a
`Set`, the extension-derived token added, `Array.from(unique)
.filter(Boolean)`. -/
def resolveFormats (src : Src) (formats : List String) : List String :=
  (setAdd (dedupFirst formats) (nativeFormatToken src)).filter
    (fun f => f != "")

/-- `Promise.all` over a list of settled outcomes: results are gathered by
position; a rejection rejects the whole aggregate. -/
def promiseAll : List (Except ε α) → Except ε (List α)
  | [] => .ok []
  | x :: xs =>
    match x with
    | .error e => .error e
    | .ok a =>
      match promiseAll xs with
      | .error e => .error e
      | .ok as => .ok (a :: as)

/-- The `TransformOptions` record built for one srcset entry inside
`getSource`: `{src, format, width, fit, position, background,
height: Math.round(width / aspectRatio)}`. -/
def srcsetOpts (src : Src) (fit position background : Option String)
    (aspectRatio : ℚ) (format : String) (width : ℤ) : TransformOptions :=
  { src := src
    format := some format
    width := ((width : ℚ) : WithBot ℚ)
    fit := fit
    position := position
    background := background
    height := some (jsRound ((width : ℚ) / aspectRatio)) }

/-- The inner `getSource` of `getPicture`: one transform per width, the
token `"<url> <width>w"` per result, joined with `','`, paired with
`mime.getType(format) || format`. -/
def getSource (getImage : TransformOptions → Except String ImgAttributes)
    (mimeGetType : String → Option String) (src : Src)
    (fit position background : Option String)
    (widths : List ℤ) (aspectRatio : ℚ) (format : String) :
    Except String SourceEntry :=
  match promiseAll (widths.map (fun width =>
      (getImage (srcsetOpts src fit position background aspectRatio format
        width)).map
        (fun img => img.src ++ " " ++ toString width ++ "w"))) with
  | .error e => .error e
  | .ok imgs =>
    .ok { type := jsOrStr (mimeGetType format) format
          srcset := String.intercalate "," imgs }

/-- The `TransformOptions` record built for the fallback image:
`{src, width: Math.max(...widths), aspectRatio, fit, position, background,
format: allFormats[allFormats.length - 1]}`. -/
def fallbackOpts (p : GetPictureParams) (widths : List ℤ)
    (aspectRatio : ℚ) : TransformOptions :=
  { src := p.src
    width := jsMax widths
    aspectRatio := some (.num aspectRatio)
    fit := p.fit
    position := p.position
    background := p.background
    format := (resolveFormats p.src p.formats).getLast? }

/-- `getPicture` from `get-picture.ts`, parametrised by its two
collaborators.  The guards, the aspect-ratio resolution, the fallback
transform and the per-format fan-out appear in the source's order of
evaluation. -/
def getPicture (getImage : TransformOptions → Except String ImgAttributes)
    (mimeGetType : String → Option String) (params : GetPictureParams) :
    Except GPError GetPictureResult :=
  if srcTruthy params.src = false then .error .srcRequired
  else
    match params.widths with
    | none => .error .widthRequired
    | some widths =>
      match resolveAspectRatio params.src params.aspectRatio with
      | none => .error .missingAspectRatio
      | some aspectRatio =>
        if aspectRatio = 0 then .error .missingAspectRatio
        else
          match getImage (fallbackOpts params widths aspectRatio) with
          | .error e => .error (.transformError e)
          | .ok image =>
            match promiseAll ((resolveFormats params.src params.formats).map
                (getSource getImage mimeGetType params.src params.fit
                  params.position params.background widths aspectRatio)) with
            | .error e => .error (.transformError e)
            | .ok sources => .ok { sources := sources, image := image }


/-- Spec-side reformulation of step 2 of the algorithm, written from the
spec's words: "Start from the caller-declared formats (as a set, first-seen
order preserved), then union in the format implied by the source's file
extension ...; drop empty/falsy entries."  Compared with `resolveFormats`
in the theorem for C2. -/
def specResolvedFormats (declared : List String) (native : String) :
    List String :=
  (if native ∈ dedupFirst declared then dedupFirst declared
   else dedupFirst declared ++ [native]).filter (fun f => f != "")

/-- A deterministic transformer stub for witnesses: the produced URL is the
requested format token (or `"fmt"` when the request carries none). -/
def stubTransformer : TransformOptions → ImgAttributes :=
  fun o => { src := jsOrStr o.format "fmt" }

/-- The stub transformer as an always-succeeding collaborator. -/
def okTransformer : TransformOptions → Except String ImgAttributes :=
  fun o => .ok (stubTransformer o)

/-- A MIME lookup stub that knows no format. -/
def noMime : String → Option String := fun _ => none

/-- Concrete parameters used by witnesses: a path source with an extension,
two widths, one declared format, and a numeric aspect-ratio override. -/
def sampleParams : GetPictureParams :=
  { src := .path "photo.jpg"
    widths := some [4, 8]
    formats := ["webp"]
    aspectRatio := some (.num 2) }

/-! ## Helper lemmas -/

/-- `Rat.floor` agrees with `Int.floor`, so `jsRound q = ⌊q + 1/2⌋`. -/
theorem jsRound_eq_floor (q : ℚ) : jsRound q = ⌊q + 1 / 2⌋ := by
  rw [jsRound, Rat.floor_def', Rat.floor_def]

/-- `Promise.all` over a list whose every element settles successfully
resolves to the positional list of the results. -/
theorem promiseAll_map_ok (h : α → Except ε β) (g : α → β) :
    ∀ l : List α, (∀ a ∈ l, h a = .ok (g a)) →
      promiseAll (l.map h) = .ok (l.map g)
  | [], _ => rfl
  | a :: l, H => by
    simp only [List.map_cons, promiseAll, H a (List.mem_cons_self a l),
      promiseAll_map_ok h g l (fun x hx => H x (List.mem_cons_of_mem a hx))]

/-- `Promise.all` over a list whose elements all settle, at least one of
them rejecting with `e`, rejects with `e`. -/
theorem promiseAll_error (e : ε) :
    ∀ l : List (Except ε α), (∀ x ∈ l, x = .error e ∨ ∃ a, x = .ok a) →
      Except.error e ∈ l → promiseAll l = .error e
  | [], _, hex => absurd hex (List.not_mem_nil _)
  | x :: l, hall, hex => by
    rcases hall x (List.mem_cons_self x l) with hx | ⟨a, hx⟩
    · simp only [hx, promiseAll]
    · have hmem : Except.error e ∈ l := by
        rcases List.mem_cons.mp hex with h1 | h1
        · rw [hx] at h1; exact absurd h1 (fun h => Except.noConfusion h)
        · exact h1
      simp only [hx, promiseAll,
        promiseAll_error e l (fun y hy => hall y (List.mem_cons_of_mem x hy))
          hmem]

theorem getSource_ok (u : TransformOptions → ImgAttributes)
    (mg : String → Option String) (src : Src)
    (fit position background : Option String)
    (ws : List ℤ) (ρ : ℚ) (fm : String) :
    getSource (fun o => .ok (u o)) mg src fit position background ws ρ fm =
      .ok { type := jsOrStr (mg fm) fm
            srcset := String.intercalate "," (ws.map (fun w =>
              (u (srcsetOpts src fit position background ρ fm w)).src
                ++ " " ++ toString w ++ "w")) } := by
  simp only [getSource]
  rw [promiseAll_map_ok
    (fun width => Except.map (fun img => img.src ++ " " ++ toString width ++ "w")
      (Except.ok (u (srcsetOpts src fit position background ρ fm width))))
    (fun w => (u (srcsetOpts src fit position background ρ fm w)).src
      ++ " " ++ toString w ++ "w")
    ws (fun _ _ => rfl)]

theorem getPicture_ok_characterization (u : TransformOptions → ImgAttributes)
    (mg : String → Option String) (p : GetPictureParams)
    (ws : List ℤ) (ρ : ℚ)
    (hsrc : srcTruthy p.src = true)
    (hw : p.widths = some ws)
    (hρ : resolveAspectRatio p.src p.aspectRatio = some ρ)
    (hρ0 : ρ ≠ 0) :
    getPicture (fun o => .ok (u o)) mg p =
      .ok { image := u (fallbackOpts p ws ρ)
            sources := (resolveFormats p.src p.formats).map (fun fm =>
              { type := jsOrStr (mg fm) fm
                srcset := String.intercalate "," (ws.map (fun w =>
                  (u (srcsetOpts p.src p.fit p.position p.background ρ fm w)).src
                    ++ " " ++ toString w ++ "w")) }) } := by
  simp only [getPicture, hsrc, hw, hρ, if_neg hρ0]
  rw [promiseAll_map_ok
    (getSource (fun o => .ok (u o)) mg p.src p.fit p.position p.background
      ws ρ)
    (fun fm =>
      { type := jsOrStr (mg fm) fm
        srcset := String.intercalate "," (ws.map (fun w =>
          (u (srcsetOpts p.src p.fit p.position p.background ρ fm w)).src
            ++ " " ++ toString w ++ "w")) })
    (resolveFormats p.src p.formats)
    (fun fm _ => getSource_ok u mg p.src p.fit p.position p.background ws ρ fm)]
  simp

/-- The fold inside `jsMax` never goes below its starting value. -/
theorem jsMax_foldl_init_le (l : List ℤ) :
    ∀ a : WithBot ℚ,
      a ≤ l.foldl (fun (acc : WithBot ℚ) (v : ℤ) =>
        max acc ((v : ℚ) : WithBot ℚ)) a := by
  induction l with
  | nil => exact fun a => le_refl a
  | cons c cs ih =>
    exact fun a => le_trans (le_max_left a ((c : ℚ) : WithBot ℚ)) (ih _)

/-- `jsMax` is an upper bound of the list. -/
theorem le_jsMax (l : List ℤ) (w : ℤ) (hw : w ∈ l) :
    ((w : ℚ) : WithBot ℚ) ≤ jsMax l := by
  rw [jsMax]
  generalize (⊥ : WithBot ℚ) = a
  induction l generalizing a with
  | nil => exact absurd hw (List.not_mem_nil w)
  | cons c cs ih =>
    rcases List.mem_cons.mp hw with h1 | h1
    · subst h1
      exact le_trans (le_max_right a ((w : ℚ) : WithBot ℚ))
        (jsMax_foldl_init_le cs _)
    · exact ih h1 _

/-- The fold inside `jsMax` returns one of the list's elements or its
starting value. -/
theorem jsMax_foldl_or (l : List ℤ) :
    ∀ a : WithBot ℚ,
      (∃ w ∈ l,
        l.foldl (fun (acc : WithBot ℚ) (v : ℤ) =>
          max acc ((v : ℚ) : WithBot ℚ)) a = ((w : ℚ) : WithBot ℚ)) ∨
      l.foldl (fun (acc : WithBot ℚ) (v : ℤ) =>
        max acc ((v : ℚ) : WithBot ℚ)) a = a := by
  induction l with
  | nil => exact fun a => Or.inr rfl
  | cons c cs ih =>
    intro a
    rcases ih (max a ((c : ℚ) : WithBot ℚ)) with ⟨w, hw, heq⟩ | heq
    · exact Or.inl ⟨w, List.mem_cons_of_mem c hw, heq⟩
    · rcases max_choice a ((c : ℚ) : WithBot ℚ) with hm | hm
      · rw [List.foldl_cons, heq, hm]
        exact Or.inr rfl
      · rw [List.foldl_cons, heq, hm]
        exact Or.inl ⟨c, List.mem_cons_self c cs, rfl⟩

/-- On a non-empty list `jsMax` is attained by some element: it is
`Math.max` of the widths. -/
theorem jsMax_attained (l : List ℤ) (h : l ≠ []) :
    ∃ w ∈ l, jsMax l = ((w : ℚ) : WithBot ℚ) := by
  rw [jsMax]
  rcases jsMax_foldl_or l ⊥ with h1 | h1
  · exact h1
  · rcases l with _ | ⟨c, cs⟩
    · exact absurd rfl h
    · exfalso
      have hle := le_jsMax (c :: cs) c (List.mem_cons_self c cs)
      rw [jsMax] at hle
      rw [h1] at hle
      exact absurd (le_bot_iff.mp hle) (WithBot.coe_ne_bot)

/-! ## Claims -/

/-- C1: for non-empty `widths` and non-empty `formats`, with every
transform succeeding, `getPicture` returns one `sources` entry per
resolved format, in resolved-format order; each entry's `srcset` is the
comma-joined (no space) list of `"<url> <width>w"` tokens, one per
requested width, in caller-supplied width order (transforms are gathered
by position, not completion order). -/
theorem getPicture_sources_shape (u : TransformOptions → ImgAttributes)
    (mg : String → Option String) (p : GetPictureParams)
    (ws : List ℤ) (ρ : ℚ)
    (hsrc : srcTruthy p.src = true)
    (hw : p.widths = some ws)
    (hρ : resolveAspectRatio p.src p.aspectRatio = some ρ)
    (hρ0 : ρ ≠ 0)
    (hwne : ws ≠ []) (hfne : p.formats ≠ []) :
    ∃ r, getPicture (fun o => .ok (u o)) mg p = .ok r ∧
      r.sources = (resolveFormats p.src p.formats).map (fun fm =>
        { type := jsOrStr (mg fm) fm
          srcset := String.intercalate "," (ws.map (fun w =>
            (u (srcsetOpts p.src p.fit p.position p.background ρ fm w)).src
              ++ " " ++ toString w ++ "w")) }) ∧
      r.sources.length = (resolveFormats p.src p.formats).length :=
  ⟨_, getPicture_ok_characterization u mg p ws ρ hsrc hw hρ hρ0, rfl,
    by simp⟩

theorem getPicture_sources_shape_witness :
    ([4, 8] : List ℤ) ≠ [] ∧ sampleParams.formats ≠ [] ∧
    ∃ r, getPicture (fun o => .ok (stubTransformer o)) noMime sampleParams
        = .ok r ∧
      r.sources = (resolveFormats sampleParams.src sampleParams.formats).map
        (fun fm =>
          { type := jsOrStr (noMime fm) fm
            srcset := String.intercalate "," (([4, 8] : List ℤ).map (fun w =>
              (stubTransformer (srcsetOpts sampleParams.src sampleParams.fit
                sampleParams.position sampleParams.background 2 fm w)).src
                ++ " " ++ toString w ++ "w")) }) ∧
      r.sources.length =
        (resolveFormats sampleParams.src sampleParams.formats).length :=
  ⟨by decide, by decide,
    getPicture_sources_shape stubTransformer noMime sampleParams [4, 8] 2
      (by decide) rfl (by decide) (by decide) (by decide) (by decide)⟩

/-- C2: the resolved format list is the caller-declared formats
deduplicated first-seen, the extension-derived format appended when not
already present, falsy entries dropped (the spec-side construction
`specResolvedFormats`); when the source has a non-empty native format
token it is always a member of the resolved list. -/
theorem resolveFormats_matches_spec (src : Src) (formats : List String) :
    resolveFormats src formats =
      specResolvedFormats formats (nativeFormatToken src) ∧
    (nativeFormatToken src ≠ "" →
      nativeFormatToken src ∈ resolveFormats src formats) := by
  constructor
  · rfl
  · intro h
    rw [resolveFormats]
    refine List.mem_filter.mpr ⟨?_, ?_⟩
    · rw [setAdd]
      split
      · next hmem => exact hmem
      · exact List.mem_append_right _ (List.mem_singleton.mpr rfl)
    · simpa using h

theorem resolveFormats_matches_spec_witness :
    nativeFormatToken (.path "photo.jpg") ≠ "" ∧
    nativeFormatToken (.path "photo.jpg") ∈
      resolveFormats (.path "photo.jpg") ["webp"] :=
  ⟨by decide, (resolveFormats_matches_spec (.path "photo.jpg") ["webp"]).2
    (by decide)⟩

/-- C3: with every transform succeeding and a non-empty `widths`, the
fallback `image` is the transformer's answer to the fallback request,
whose width is `Math.max` of the caller's widths (an attained upper bound
of the list) and whose format is the last entry of the resolved format
list. -/
theorem getPicture_fallback_request (u : TransformOptions → ImgAttributes)
    (mg : String → Option String) (p : GetPictureParams)
    (ws : List ℤ) (ρ : ℚ)
    (hsrc : srcTruthy p.src = true)
    (hw : p.widths = some ws)
    (hρ : resolveAspectRatio p.src p.aspectRatio = some ρ)
    (hρ0 : ρ ≠ 0)
    (hwne : ws ≠ []) :
    ∃ r, getPicture (fun o => .ok (u o)) mg p = .ok r ∧
      r.image = u (fallbackOpts p ws ρ) ∧
      (fallbackOpts p ws ρ).width = jsMax ws ∧
      (fallbackOpts p ws ρ).format =
        (resolveFormats p.src p.formats).getLast? ∧
      (∀ w ∈ ws, ((w : ℚ) : WithBot ℚ) ≤ jsMax ws) ∧
      (∃ w ∈ ws, jsMax ws = ((w : ℚ) : WithBot ℚ)) :=
  ⟨_, getPicture_ok_characterization u mg p ws ρ hsrc hw hρ hρ0, rfl, rfl,
    rfl, fun w hmem => le_jsMax ws w hmem, jsMax_attained ws hwne⟩

theorem getPicture_fallback_request_witness :
    ([4, 8] : List ℤ) ≠ [] ∧
    ∃ r, getPicture (fun o => .ok (stubTransformer o)) noMime sampleParams
        = .ok r ∧
      r.image = stubTransformer (fallbackOpts sampleParams [4, 8] 2) ∧
      (fallbackOpts sampleParams [4, 8] 2).width = jsMax [4, 8] ∧
      (fallbackOpts sampleParams [4, 8] 2).format =
        (resolveFormats sampleParams.src sampleParams.formats).getLast? ∧
      (∀ w ∈ ([4, 8] : List ℤ), ((w : ℚ) : WithBot ℚ) ≤ jsMax [4, 8]) ∧
      (∃ w ∈ ([4, 8] : List ℤ), jsMax [4, 8] = ((w : ℚ) : WithBot ℚ)) :=
  ⟨by decide,
    getPicture_fallback_request stubTransformer noMime sampleParams [4, 8] 2
      (by decide) rfl (by decide) (by decide) (by decide)⟩

/-- C4: a non-empty bare path source with no aspect-ratio override makes
`getPicture` fail with the missing-aspect-ratio error, whatever the
transformer, MIME lookup, widths and formats. -/
theorem getPicture_path_missing_ratio
    (getImage : TransformOptions → Except String ImgAttributes)
    (mg : String → Option String) (s : String) (ws : List ℤ)
    (formats : List String) (fit background position : Option String)
    (hs : s ≠ "") :
    getPicture getImage mg
      { src := .path s, widths := some ws, formats := formats,
        aspectRatio := none, fit := fit, background := background,
        position := position } = .error .missingAspectRatio := by
  simp [getPicture, srcTruthy, resolveAspectRatio, parseAspectRatio, hs]

theorem getPicture_path_missing_ratio_witness :
    "photo.jpg" ≠ "" ∧
    getPicture okTransformer noMime
      { src := .path "photo.jpg", widths := some [4], formats := ["webp"],
        aspectRatio := none, fit := none, background := none,
        position := none } = .error .missingAspectRatio :=
  ⟨by decide, getPicture_path_missing_ratio okTransformer noMime "photo.jpg"
    [4] ["webp"] none none none (by decide)⟩

/-- C9: `getPicture` is a function of its inputs and its (deterministic)
collaborators: two calls with equal parameters and the same transformer
and MIME lookup return equal results. -/
theorem getPicture_deterministic
    (t : TransformOptions → Except String ImgAttributes)
    (mg : String → Option String) (p q : GetPictureParams) (h : p = q) :
    getPicture t mg p = getPicture t mg q := by
  rw [h]

theorem getPicture_deterministic_witness :
    sampleParams = sampleParams ∧
    getPicture okTransformer noMime sampleParams =
      getPicture okTransformer noMime sampleParams :=
  ⟨rfl, getPicture_deterministic okTransformer noMime sampleParams
    sampleParams rfl⟩

/-- With a transformer that settles every per-width request, at least one
of them rejecting with `e`, `getSource` rejects with `e`. -/
theorem getSource_error (t : TransformOptions → Except String ImgAttributes)
    (mg : String → Option String) (src : Src)
    (fit position background : Option String)
    (ws : List ℤ) (ρ : ℚ) (fm : String) (e : String)
    (hall : ∀ w ∈ ws,
      t (srcsetOpts src fit position background ρ fm w) = .error e ∨
      ∃ a, t (srcsetOpts src fit position background ρ fm w) = .ok a)
    (hex : ∃ w ∈ ws,
      t (srcsetOpts src fit position background ρ fm w) = .error e) :
    getSource t mg src fit position background ws ρ fm = .error e := by
  rw [getSource]
  rw [promiseAll_error e _ ?_ ?_]
  · intro x hx
    obtain ⟨w, hwmem, rfl⟩ := List.mem_map.mp hx
    rcases hall w hwmem with h1 | ⟨a, h1⟩
    · rw [h1]
      exact Or.inl rfl
    · rw [h1]
      exact Or.inr ⟨_, rfl⟩
  · obtain ⟨w, hwmem, hfail⟩ := hex
    refine List.mem_map.mpr ⟨w, hwmem, ?_⟩
    rw [hfail]
    rfl

/-- C6: if the transformer rejects the requests for some width present in
`widths` (with error `e`) and settles every other request, `getPicture`
rejects with that error propagated, returning no partial result. -/
theorem getPicture_transform_failure_aborts
    (u : TransformOptions → ImgAttributes) (mg : String → Option String)
    (p : GetPictureParams) (ws : List ℤ) (ρ : ℚ) (w₀ : ℤ) (e : String)
    (hsrc : srcTruthy p.src = true) (hw : p.widths = some ws)
    (hρ : resolveAspectRatio p.src p.aspectRatio = some ρ) (hρ0 : ρ ≠ 0)
    (hmem : w₀ ∈ ws) (hfne : resolveFormats p.src p.formats ≠ []) :
    getPicture
      (fun o => if o.width = ((w₀ : ℚ) : WithBot ℚ) then .error e
        else .ok (u o)) mg p = .error (.transformError e) := by
  simp only [getPicture, hsrc, hw, hρ, if_neg hρ0]
  have hgs : ∀ fm, getSource
      (fun o => if o.width = ((w₀ : ℚ) : WithBot ℚ) then Except.error e
        else Except.ok (u o)) mg p.src p.fit p.position p.background ws ρ fm
      = .error e := by
    intro fm
    apply getSource_error
    · intro w hwmem
      by_cases hc : (srcsetOpts p.src p.fit p.position p.background ρ fm
          w).width = ((w₀ : ℚ) : WithBot ℚ)
      · exact Or.inl (if_pos hc)
      · exact Or.inr ⟨_, if_neg hc⟩
    · exact ⟨w₀, hmem, if_pos rfl⟩
  by_cases hc : (fallbackOpts p ws ρ).width = ((w₀ : ℚ) : WithBot ℚ)
  · simp only [if_pos hc]
    rfl
  · simp only [if_neg hc]
    obtain ⟨fm, rest, hcons⟩ := List.exists_cons_of_ne_nil hfne
    rw [hcons, List.map_cons]
    simp only [promiseAll, hgs fm]
    rfl

theorem getPicture_transform_failure_aborts_witness :
    (8 : ℤ) ∈ ([4, 8] : List ℤ) ∧
    resolveFormats sampleParams.src sampleParams.formats ≠ [] ∧
    getPicture (fun o => if o.width = (((8 : ℤ) : ℚ) : WithBot ℚ)
      then .error "boom" else .ok (stubTransformer o)) noMime sampleParams =
      .error (.transformError "boom") :=
  ⟨by decide, by decide,
    getPicture_transform_failure_aborts stubTransformer noMime sampleParams
      [4, 8] 2 8 "boom" (by decide) rfl (by decide) (by decide) (by decide)
      (by decide)⟩

/-- C5 (failing input for the claimed `InvalidArgument` guard): the guard
`!widths || !Array.isArray(widths)` passes for the truthy empty array, so
`getPicture` called with `widths = []` succeeds (the fallback request
carries `Math.max()` of no arguments, `-Infinity`, and every `srcset` is
empty) instead of failing with the claimed `InvalidArgument` error. -/
theorem getPicture_empty_widths_accepted :
    getPicture okTransformer noMime
      { src := .metadata { src := "photo.jpg", width := 2, height := 1 },
        widths := some [], formats := ["webp"],
        aspectRatio := some (.num 2) } =
      .ok { image := { src := "jpg" },
            sources := [{ type := "webp", srcset := "" },
                        { type := "jpg", srcset := "" }] } := by
  decide

/-- C7: with every transform succeeding, each srcset request for format
`fm` and width `w` carries `height = round(w / aspectRatio)`, i.e.
`⌊w / ρ + 1/2⌋` for the resolved ratio `ρ`. -/
theorem getPicture_srcset_height (u : TransformOptions → ImgAttributes)
    (mg : String → Option String) (p : GetPictureParams)
    (ws : List ℤ) (ρ : ℚ)
    (hsrc : srcTruthy p.src = true)
    (hw : p.widths = some ws)
    (hρ : resolveAspectRatio p.src p.aspectRatio = some ρ)
    (hρ0 : ρ ≠ 0) :
    ∃ r, getPicture (fun o => .ok (u o)) mg p = .ok r ∧
      r.sources = (resolveFormats p.src p.formats).map (fun fm =>
        { type := jsOrStr (mg fm) fm
          srcset := String.intercalate "," (ws.map (fun w =>
            (u (srcsetOpts p.src p.fit p.position p.background ρ fm w)).src
              ++ " " ++ toString w ++ "w")) }) ∧
      ∀ fm w,
        (srcsetOpts p.src p.fit p.position p.background ρ fm w).height =
          some (jsRound ((w : ℚ) / ρ)) ∧
        jsRound ((w : ℚ) / ρ) = ⌊(w : ℚ) / ρ + 1 / 2⌋ :=
  ⟨_, getPicture_ok_characterization u mg p ws ρ hsrc hw hρ hρ0, rfl,
    fun fm w => ⟨rfl, jsRound_eq_floor ((w : ℚ) / ρ)⟩⟩

theorem getPicture_srcset_height_witness :
    ∃ r, getPicture (fun o => .ok (stubTransformer o)) noMime sampleParams
        = .ok r ∧
      r.sources = (resolveFormats sampleParams.src sampleParams.formats).map
        (fun fm =>
          { type := jsOrStr (noMime fm) fm
            srcset := String.intercalate "," (([4, 8] : List ℤ).map (fun w =>
              (stubTransformer (srcsetOpts sampleParams.src sampleParams.fit
                sampleParams.position sampleParams.background 2 fm w)).src
                ++ " " ++ toString w ++ "w")) }) ∧
      ∀ fm w,
        (srcsetOpts sampleParams.src sampleParams.fit sampleParams.position
          sampleParams.background 2 fm w).height =
          some (jsRound ((w : ℚ) / 2)) ∧
        jsRound ((w : ℚ) / 2) = ⌊(w : ℚ) / 2 + 1 / 2⌋ :=
  getPicture_srcset_height stubTransformer noMime sampleParams [4, 8] 2
    (by decide) rfl (by decide) (by decide)

/-- C8: with every transform succeeding, each sources entry's `type` is
`mime.getType(format) || format`: the looked-up MIME type when the lookup
returns a non-empty string, the format token itself when the lookup
returns nothing. -/
theorem getPicture_source_types (u : TransformOptions → ImgAttributes)
    (mg : String → Option String) (p : GetPictureParams)
    (ws : List ℤ) (ρ : ℚ)
    (hsrc : srcTruthy p.src = true)
    (hw : p.widths = some ws)
    (hρ : resolveAspectRatio p.src p.aspectRatio = some ρ)
    (hρ0 : ρ ≠ 0) :
    ∃ r, getPicture (fun o => .ok (u o)) mg p = .ok r ∧
      r.sources.map (fun s => s.type) =
        (resolveFormats p.src p.formats).map (fun fm => jsOrStr (mg fm) fm) ∧
      (∀ fm, mg fm = none → jsOrStr (mg fm) fm = fm) ∧
      (∀ fm m, mg fm = some m → m ≠ "" → jsOrStr (mg fm) fm = m) :=
  ⟨_, getPicture_ok_characterization u mg p ws ρ hsrc hw hρ hρ0,
    by simp,
    fun fm hnone => by simp [jsOrStr, hnone],
    fun fm m hsome hm => by simp [jsOrStr, hsome, hm]⟩

theorem getPicture_source_types_witness :
    ∃ r, getPicture (fun o => .ok (stubTransformer o)) noMime sampleParams
        = .ok r ∧
      r.sources.map (fun s => s.type) =
        (resolveFormats sampleParams.src sampleParams.formats).map
          (fun fm => jsOrStr (noMime fm) fm) ∧
      (∀ fm, noMime fm = none → jsOrStr (noMime fm) fm = fm) ∧
      (∀ fm m, noMime fm = some m → m ≠ "" → jsOrStr (noMime fm) fm = m) :=
  getPicture_source_types stubTransformer noMime sampleParams [4, 8] 2
    (by decide) rfl (by decide) (by decide)

/-- C10: when the source is a path string without a file extension the
extension-derived token is the empty string, so after the falsy filter the
resolved format list is just the deduplicated declared formats (with falsy
entries dropped): no native format is appended. -/
theorem resolveFormats_no_extension (s : String) (formats : List String)
    (hext : extname s = "") :
    nativeFormatToken (.path s) = "" ∧
    resolveFormats (.path s) formats =
      (dedupFirst formats).filter (fun f => f != "") := by
  have htok : nativeFormatToken (.path s) = "" := by
    rw [nativeFormatToken, hext]
    decide
  refine ⟨htok, ?_⟩
  rw [resolveFormats, htok, setAdd]
  split
  · rfl
  · rw [List.filter_append]
    simp

theorem resolveFormats_no_extension_witness :
    extname "photo" = "" ∧
    (nativeFormatToken (.path "photo") = "" ∧
      resolveFormats (.path "photo") ["webp", "webp"] =
        (dedupFirst ["webp", "webp"]).filter (fun f => f != "")) :=
  ⟨by decide,
    resolveFormats_no_extension "photo" ["webp", "webp"] (by decide)⟩
